import Mathlib

/-!
Verification of the pytest-cpp Boost test adapter (`pytest_cpp/boost.py` and
`pytest_cpp/junit_xml.py`) against its specification.

Python strings are embedded as `List Char`.  Subprocess invocations are
abstracted into their observable results (captured help output, exit code,
captured stdout, and the contents of the log/report artifact files); every
function of the code that consumes those results is translated directly from
the source.  A raised Python exception is modelled as `Except.error` carrying
the exception class.
-/

set_option maxRecDepth 8000

abbrev Str := List Char

/-- Convert a Lean string literal to the `List Char` representation. -/
def chars (s : String) : Str := s.toList

/-- Whitespace characters, as matched by Python's `str.strip` and `\s`
(restricted to the ASCII whitespace actually occurring in the modelled data). -/
def isWsChar (c : Char) : Bool :=
  c == ' ' || c == '\t' || c == '\n' || c == '\r' || c == '\x0b' || c == '\x0c'

/-- Python `s.startswith(pre)`. -/
def startsWithB (pre s : Str) : Bool := pre.isPrefixOf s

/-- Fuelled worker for Python `s.split(sep)` (non-overlapping, leftmost-first;
`sep` is never empty at the call sites).  The fuel only bounds recursion depth;
`splitOnSub` supplies `s.length`, which is always sufficient because every
recursive call consumes at least one character. -/
def splitOnSubF (sep : Str) : Nat → Str → List Str
  | _, [] => [[]]
  | 0, s => [s]
  | fuel + 1, c :: rest =>
    if sep.isPrefixOf (c :: rest) && !sep.isEmpty then
      [] :: splitOnSubF sep fuel ((c :: rest).drop sep.length)
    else
      match splitOnSubF sep fuel rest with
      | [] => [[c]]
      | r :: rs => (c :: r) :: rs

/-- Python `s.split(sep)`. -/
def splitOnSub (sep s : Str) : List Str := splitOnSubF sep s.length s

/-- Fuelled worker for Python `s.count(sep)` (non-overlapping occurrence count). -/
def countSubF (sep : Str) : Nat → Str → Nat
  | _, [] => 0
  | 0, _ => 0
  | fuel + 1, c :: rest =>
    if sep.isPrefixOf (c :: rest) && !sep.isEmpty then
      countSubF sep fuel ((c :: rest).drop sep.length) + 1
    else countSubF sep fuel rest

/-- Python `s.count(sep)`: number of non-overlapping occurrences of `sep` in `s`. -/
def countSub (sep s : Str) : Nat := countSubF sep s.length s

/-- The suffix of `s` following the first occurrence of `pat`, or `none` when
`pat` does not occur in `s`. -/
def dropAfterFirst (pat : Str) : Str → Option Str
  | [] => if pat.isEmpty then some [] else none
  | c :: rest =>
    if pat.isPrefixOf (c :: rest) then some ((c :: rest).drop pat.length)
    else dropAfterFirst pat rest

/-- Python `pat in s` (substring containment). -/
def containsSub (pat s : Str) : Bool := (dropAfterFirst pat s).isSome

/-- Python string interpolation of a value that may be `None`:
`'%s' % x` prints `None` for the `None` value and the string itself otherwise. -/
def pyFormatOpt : Option Str → Str
  | none => chars "None"
  | some s => s

/-- Decimal digits of a candidate integer literal, or `none` when the text is
not a plain digit run. -/
def digitsToNat (ds : Str) : Option Nat :=
  if ds ≠ [] ∧ ds.all Char.isDigit then
    some (ds.foldl (fun n c => n * 10 + (c.toNat - 48)) 0)
  else none

/-- Python `int(s)`: surrounding whitespace stripped, optional sign, digits.
Any other shape raises `ValueError`, modelled as `none`. -/
def pyInt (s : Str) : Option Int :=
  match ((s.dropWhile isWsChar).reverse.dropWhile isWsChar).reverse with
  | '-' :: ds => (digitsToNat ds).map (fun n => -(n : Int))
  | '+' :: ds => (digitsToNat ds).map (fun n => (n : Int))
  | ds => (digitsToNat ds).map (fun n => (n : Int))

/-!
XML document model: the fragment of `xml.etree.ElementTree` exercised by the
code.  An element carries its tag, its attributes in document order, its text
(the character data between the start tag and the first child element, `None`
when empty, exactly as ElementTree reports it) and its direct children.  Tail
text between sibling elements is consumed and discarded because the code never
reads `.tail`.
-/

inductive XElem where
  | mk (tag : Str) (attrib : List (Str × Str)) (text : Option Str) (children : List XElem)

def XElem.tag : XElem → Str
  | .mk t _ _ _ => t

def XElem.attrib : XElem → List (Str × Str)
  | .mk _ a _ _ => a

def XElem.text : XElem → Option Str
  | .mk _ _ t _ => t

def XElem.children : XElem → List XElem
  | .mk _ _ _ c => c

/-- Replace the text of an element (`elem.text = ...`). -/
def XElem.withText : XElem → Option Str → XElem
  | .mk t a _ c, tx => .mk t a tx c

/-- Characters allowed inside a tag or attribute name by this parser: anything
up to a delimiter.  The modelled documents only use ASCII name characters. -/
def isNameChar (c : Char) : Bool :=
  !(c == ' ' || c == '\t' || c == '\n' || c == '\r' || c == '<' || c == '>' ||
    c == '/' || c == '=' || c == '"')

/-- ElementTree reports absent character data as `None`, never as `''`. -/
def optText (t : Str) : Option Str := if t.isEmpty then none else some t

/-- Parse a run of `name="value"` attributes up to the `/>` or `>` that closes
the start tag.  Fuelled; the fuel bounds recursion depth only. -/
def parseAttrs (fuel : Nat) (s : Str) : Option (List (Str × Str) × Str) :=
  match fuel with
  | 0 => none
  | fuel + 1 =>
    match s.dropWhile isWsChar with
    | '/' :: r => some ([], '/' :: r)
    | '>' :: r => some ([], '>' :: r)
    | s0 =>
      match s0.takeWhile isNameChar with
      | [] => none
      | nm0 :: nm1 =>
        match s0.drop (nm0 :: nm1).length with
        | '=' :: '"' :: r1 =>
          match r1.drop (r1.takeWhile (fun c => !(c == '"'))).length with
          | '"' :: r2 =>
            match parseAttrs fuel r2 with
            | none => none
            | some (attrs, r3) =>
              some ((nm0 :: nm1, r1.takeWhile (fun c => !(c == '"'))) :: attrs, r3)
          | _ => none
        | _ => none

/-- Parse a sequence of sibling elements with interleaved character data,
stopping at a closing tag or at the end of input.  Returns the text preceding
the first element (ElementTree's `.text` of the enclosing element), the
elements, and the unconsumed remainder.  Malformed input yields `none`,
modelling `xml.etree.ElementTree.ParseError`. -/
def parseSeq (fuel : Nat) (s : Str) : Option (Option Str × List XElem × Str) :=
  match fuel with
  | 0 => none
  | fuel + 1 =>
    match s.drop (s.takeWhile (fun c => !(c == '<'))).length with
    | [] => some (optText (s.takeWhile (fun c => !(c == '<'))), [], [])
    | '<' :: '/' :: r => some (optText (s.takeWhile (fun c => !(c == '<'))), [], '<' :: '/' :: r)
    | '<' :: rest =>
      match rest.takeWhile isNameChar with
      | [] => none
      | t0 :: t1 =>
        match parseAttrs fuel (rest.drop (t0 :: t1).length) with
        | none => none
        | some (attrs, s2) =>
          match s2 with
          | '/' :: '>' :: s3 =>
            match parseSeq fuel s3 with
            | none => none
            | some (_, sibs, s4) =>
              some (optText (s.takeWhile (fun c => !(c == '<'))),
                    XElem.mk (t0 :: t1) attrs none [] :: sibs, s4)
          | '>' :: s3 =>
            match parseSeq fuel s3 with
            | none => none
            | some (btxt, kids, s4) =>
              match s4 with
              | '<' :: '/' :: s5 =>
                if (t0 :: t1).isPrefixOf s5 then
                  match s5.drop (t0 :: t1).length with
                  | '>' :: s6 =>
                    match parseSeq fuel s6 with
                    | none => none
                    | some (_, sibs, s7) =>
                      some (optText (s.takeWhile (fun c => !(c == '<'))),
                            XElem.mk (t0 :: t1) attrs btxt kids :: sibs, s7)
                  | _ => none
                else none
              | _ => none
          | _ => none
    | _ => none

/-- Whether leading character data is acceptable before the document root
(whitespace only). -/
def wsOnly : Option Str → Bool
  | none => true
  | some t => t.all isWsChar

/-- `xml.etree.ElementTree.fromstring`: parse a document with exactly one root
element, allowing surrounding whitespace.  `none` models a raised
`ParseError` (in particular on empty input). -/
def fromstring (s : Str) : Option XElem :=
  match parseSeq (s.length + 1) s with
  | some (txt, [e], rest) => if wsOnly txt && rest.isEmpty then some e else none
  | _ => none

/-- `elem.findall(tag)`: the direct children carrying the given tag, in
document order. -/
def findall (tag : Str) (e : XElem) : List XElem :=
  e.children.filter (fun c => c.tag == tag)

/-- `elem.attrib[key]` as a total lookup (`none` models a raised `KeyError`). -/
def lookupAttr (e : XElem) (key : Str) : Option Str :=
  (e.attrib.find? (fun kv => kv.1 == key)).map (fun kv => kv.2)

/-!
Data model of the adapter (`pytest_cpp/boost.py`).
-/

/-- The Python exception classes that the modelled code can raise. -/
inductive PyErr where
  | attributeError
  | parseError
  | keyError
  | valueError
  | typeError
  | osError
deriving DecidableEq

/-- `BoostTestFailure.__init__(self, filename, linenum, contents)`.  The source
object stores `contents.splitlines()` for display; the record is determined by
its three constructor arguments, which are kept verbatim here.  Constructing a
record from `None` contents raises (modelled at the construction sites). -/
structure BoostTestFailure where
  filename : Str
  linenum : Int
  contents : Str
deriving DecidableEq

/-- The outcome of a run call.  `passed` models `return None`, `failed` a
returned list of `BoostTestFailure`, `skipped` the `pytest.skip()` signal, and
`rawResults` the JUnit path's `return results` statement, which returns the
parsed `(test name, failure texts, skipped)` tuples unconverted. -/
inductive RunOutcome where
  | passed
  | skipped
  | failed (records : List BoostTestFailure)
  | rawResults (results : List (Str × List (Option Str) × Bool))
deriving DecidableEq

/-- Observable result of the fallback path's child process: its exit code, the
captured stdout (bytes in the source, modelled as their text), and the contents
of the log and report artifact files (`none` when `read_file` hit a missing
file and returned `None`). -/
structure FallbackExec where
  returncode : Int
  stdout : Str
  log : Option Str
  report : Option Str

/-- Result of the `--help` capability probe: captured output on success,
`subprocess.CalledProcessError` on a non-zero exit, `OSError` on a spawn
failure. -/
inductive ProbeResult where
  | ok (output : Str)
  | calledProcessError
  | osError

inductive ListStrategy where
  | fallback
  | hierarchical
deriving DecidableEq

inductive RunStrategy where
  | fallback
  | junit
deriving DecidableEq

/-- The `Facade` object: the pair of strategies `create_facade` selected. -/
structure Facade where
  list_fn : ListStrategy
  run_fn : RunStrategy
deriving DecidableEq

/-- One line matches `_JUNIT_LOG_FORMAT = r'^.*--log_format=<.*JUNIT.*>.*?$'`
(a regex without anchors into other lines: `.` never crosses a newline), i.e.
the line contains `--log_format=<`, later `JUNIT`, later `>`, in that order. -/
def lineMatchesJUnitFormat (line : Str) : Bool :=
  match dropAfterFirst (chars "--log_format=<") line with
  | none => false
  | some r1 =>
    match dropAfterFirst (chars "JUNIT") r1 with
    | none => false
    | some r2 => (dropAfterFirst (chars ">") r2).isSome

/-- `_JUNIT_LOG_FORMAT.search(output)` with `re.MULTILINE`: some line of the
output matches the pattern. -/
def junitLogFormatAdvertised (output : Str) : Bool :=
  (splitOnSub (chars "\n") output).any lineMatchesJUnitFormat

/-- `BoostTestFacade.is_test_suite`: probes with `--help`; both
`CalledProcessError` and `OSError` are caught and yield `False`; on success the
captured text must contain both `--output_format` and `log_format`. -/
def is_test_suite : ProbeResult → Bool
  | .ok output => containsSub (chars "--output_format") output &&
                  containsSub (chars "log_format") output
  | .calledProcessError => false
  | .osError => false

/-- `BoostTestFacade.create_facade`: the listing strategy is always the
fallback one (the `--list_content` check is commented out in the source); the
run strategy is the JUnit one exactly when the probe output advertises the
JUNIT log format.  Only `CalledProcessError` is caught; an `OSError` from the
probe propagates to the caller. -/
def create_facade : ProbeResult → Except PyErr Facade
  | .ok output =>
    .ok ⟨.fallback, if junitLogFormatAdvertised output then .junit else .fallback⟩
  | .calledProcessError => .ok ⟨.fallback, .fallback⟩
  | .osError => .error .osError

/-!
Listing (`_list_tests_fallback`, `_list_tests`).
-/

/-- Bool tests on characters used by `os.path.splitext`/`os.path.basename`. -/
def notDot (c : Char) : Bool := !(c == '.')

def notSlash (c : Char) : Bool := !(c == '/')

def isDot (c : Char) : Bool := c == '.'

def isSlash (c : Char) : Bool := c == '/'

/-- `os.path.basename` (posix): the part after the last `/`. -/
def os_basename (p : Str) : Str := (p.reverse.takeWhile notSlash).reverse

/-- `os.path.splitext` (posix): split off the extension beginning at the last
dot, provided that dot comes after the last slash and the final path component
does not consist solely of leading dots up to it (so `.bashrc` has no
extension). -/
def os_splitext (p : Str) : Str × Str :=
  if (p.reverse.takeWhile notDot).length = p.reverse.length then (p, [])
  else if (p.reverse.takeWhile notDot).any isSlash then (p, [])
  else if ((p.reverse.drop ((p.reverse.takeWhile notDot).length + 1)).takeWhile notSlash).all isDot
    then (p, [])
  else ((p.reverse.drop ((p.reverse.takeWhile notDot).length + 1)).reverse,
        '.' :: (p.reverse.takeWhile notDot).reverse)

/-- `_list_tests_fallback`: the single dummy identifier
`os.path.basename(os.path.splitext(executable)[0])`. -/
def _list_tests_fallback (executable : Str) : List Str :=
  [os_basename (os_splitext executable).1]

/-- `TestNode = namedtuple('TestNode', ['name', 'indent'])`. -/
structure TestNode where
  name : Str
  indent : Nat
deriving DecidableEq

/-- `get_test_name`: slash-join of the names on the branch stack. -/
def get_test_name (branch : List TestNode) : Str :=
  List.intercalate (chars "/") (branch.map TestNode.name)

/-- The `while test_names_branch and test_names_branch[-1].indent >= indent`
pop loop, acting on the reversed stack (popping from the Python list's tail). -/
def popWhileGE (indent : Nat) : List TestNode → List TestNode
  | [] => []
  | t :: ts => if indent ≤ t.indent then popWhileGE indent ts else t :: ts

def popBranch (indent : Nat) (branch : List TestNode) : List TestNode :=
  (popWhileGE indent branch.reverse).reverse

/-- `_TEST_CASE_PATTERN.match(line)` for
`r'(?P<indent>\s*)(?P<name>[^*\s]+)\*'`: leading whitespace, then a non-empty
run of characters that are neither whitespace nor `*`, immediately followed by
a literal `*`.  Returns the indent width and the name on success. -/
def matchTestCase (line : Str) : Option (Nat × Str) :=
  match (line.drop (line.takeWhile isWsChar).length).takeWhile
      (fun c => !(c == '*') && !(isWsChar c)) with
  | [] => none
  | n0 :: n1 =>
    match (line.drop (line.takeWhile isWsChar).length).drop (n0 :: n1).length with
    | '*' :: _ => some ((line.takeWhile isWsChar).length, n0 :: n1)
    | _ => none

structure ListState where
  prev_indent : Nat
  tests : List Str
  branch : List TestNode

/-- One iteration of the `for line in get_lines_iter(output)` loop of
`_list_tests`. -/
def _list_tests_step (st : ListState) (line : Str) : ListState :=
  match matchTestCase line with
  | none => st
  | some (indent, test_name) =>
    let st1 :=
      if indent ≤ st.prev_indent then
        { st with
          tests := if (get_test_name st.branch).isEmpty then st.tests
                   else st.tests ++ [get_test_name st.branch],
          branch := popBranch indent st.branch }
      else st
    { st1 with branch := st1.branch ++ [⟨test_name, indent⟩], prev_indent := indent }

/-- `_list_tests`, as a function of the captured `--list_content=HRF` output
(the subprocess invocation is abstracted into its output text).  The
`_LINE_ENDING.finditer` line iteration is equivalent to splitting on newline. -/
def _list_tests (output : Str) : List Str :=
  match (splitOnSub (chars "\n") output).foldl _list_tests_step ⟨0, [], []⟩ with
  | ⟨_, tests, branch⟩ =>
    if branch.isEmpty then tests else tests ++ [get_test_name branch]

/-!
The native-log report parser (`_parse_log`) and the fallback runner
(`_run_tests_fallback`).
-/

/-- Building one `BoostTestFailure(elem.attrib['file'],
int(elem.attrib['line']), elem.text)`.  A missing attribute raises `KeyError`,
a non-integer line raises `ValueError`, and `None` text raises
`AttributeError` inside the constructor (`contents.splitlines()`). -/
def recordOfElem (e : XElem) : Except PyErr BoostTestFailure :=
  match lookupAttr e (chars "file") with
  | none => .error .keyError
  | some fn =>
    match lookupAttr e (chars "line") with
    | none => .error .keyError
    | some ls =>
      match pyInt ls with
      | none => .error .valueError
      | some ln =>
        match e.text with
        | none => .error .attributeError
        | some t => .ok ⟨fn, ln, t⟩

def recordsOfElems : List XElem → Except PyErr (List BoostTestFailure)
  | [] => .ok []
  | e :: es =>
    match recordOfElem e with
    | .error er => .error er
    | .ok r =>
      match recordsOfElems es with
      | .error er => .error er
      | .ok rs => .ok (r :: rs)

/-- The tail of `_parse_log`: parse the (remaining) log document, collect the
direct children tagged `Exception`, then `Error`, then `FatalError` after the
already-parsed fatal-fragment elements, and convert each to a failure record. -/
def parseLogTail (pre : List XElem) (s : Str) : Except PyErr (List BoostTestFailure) :=
  match fromstring s with
  | none => .error .parseError
  | some root =>
    recordsOfElems (pre ++ findall (chars "Exception") root ++
      findall (chars "Error") root ++ findall (chars "FatalError") root)

/-- `_parse_log(log)`.  The argument is the value `read_file` produced: `None`
for a missing file (on which `log.startswith` raises `AttributeError`).  When
the text starts with `<FatalError`, `log.split('</FatalError>')` must produce
exactly two pieces for the tuple unpacking to succeed; otherwise `ValueError`
is raised. -/
def _parse_log (log : Option Str) : Except PyErr (List BoostTestFailure) :=
  match log with
  | none => .error .attributeError
  | some s =>
    if startsWithB (chars "<FatalError") s then
      match splitOnSub (chars "</FatalError>") s with
      | [fatal0, rest] =>
        match fromstring (fatal0 ++ chars "</FatalError>") with
        | none => .error .parseError
        | some froot =>
          parseLogTail
            [froot.withText (some (chars "Fatal Error: " ++ pyFormatOpt froot.text))] rest
      | _ => .error .valueError
    else parseLogTail [] s

/-- The synthetic diagnostic message of the fallback runner, from the template
`'Internal Error: calling {executable} for test {test_id} failed
(returncode={returncode}):\noutput:{stdout}\nlog:{log}\nreport:{report}'`. -/
def internalErrorMsg (e : FallbackExec) (executable test_id : Str) : Str :=
  chars "Internal Error: calling " ++ executable ++ chars " for test " ++ test_id ++
  chars " failed (returncode=" ++ (toString e.returncode).toList ++ chars "):\n" ++
  chars "output:" ++ e.stdout ++ chars "\n" ++ chars "log:" ++ pyFormatOpt e.log ++
  chars "\n" ++ chars "report:" ++ pyFormatOpt e.report

/-- `results = self._parse_log(log=log); if results: return results` followed
by the implicit `return None`. -/
def runFallbackParse (log : Option Str) : Except PyErr RunOutcome :=
  match _parse_log log with
  | .error er => .error er
  | .ok results => if results.isEmpty then .ok .passed else .ok (.failed results)

/-- `report is not None and (report.startswith('Boost.Test framework internal
error: ') or report.startswith('Test setup error: '))`. -/
def sentinelReport : Option Str → Bool
  | none => false
  | some r => startsWithB (chars "Boost.Test framework internal error: ") r ||
              startsWithB (chars "Test setup error: ") r

/-- The report text, in the branch where `sentinelReport` has established it
is not `None` (the `[]` case is unreachable there). -/
def reportText : Option Str → Str
  | none => []
  | some r => r

/-- `_run_tests_fallback`, as a function of the child process's observable
results: exit codes outside `(0, 200, 201)` yield the single synthetic
failure; a report starting with one of the two sentinel error strings yields
the single `unknown location` failure; otherwise the log is parsed. -/
def _run_tests_fallback (e : FallbackExec) (executable test_id : Str) :
    Except PyErr RunOutcome :=
  if !(e.returncode == 0 || e.returncode == 200 || e.returncode == 201) then
    .ok (.failed [⟨chars "<no source file>", 0, internalErrorMsg e executable test_id⟩])
  else if sentinelReport e.report then
    .ok (.failed [⟨chars "unknown location", 0, reportText e.report⟩])
  else runFallbackParse e.log

/-!
The JUnit report parser (`pytest_cpp/junit_xml.py`) and the JUnit runner
(`_run_tests`).
-/

/-- One `testcase` element of a suite: `testcase.attrib['name']` (raising
`KeyError` when absent), the text of each `failure` child in order, and
`testcase.attrib['status'] == 'notrun'` (also raising `KeyError` when the
`status` attribute is absent). -/
def junitCaseOf (suiteName : Str) (tc : XElem) : Except PyErr (Str × List (Option Str) × Bool) :=
  match lookupAttr tc (chars "name") with
  | none => .error .keyError
  | some nm =>
    match lookupAttr tc (chars "status") with
    | none => .error .keyError
    | some st =>
      .ok (suiteName ++ chars "." ++ nm, (findall (chars "failure") tc).map XElem.text,
           st == chars "notrun")

def collectCases (suiteName : Str) : List XElem → Except PyErr (List (Str × List (Option Str) × Bool))
  | [] => .ok []
  | tc :: tcs =>
    match junitCaseOf suiteName tc with
    | .error er => .error er
    | .ok c =>
      match collectCases suiteName tcs with
      | .error er => .error er
      | .ok cs => .ok (c :: cs)

def collectSuites : List XElem → Except PyErr (List (Str × List (Option Str) × Bool))
  | [] => .ok []
  | ts :: tss =>
    match lookupAttr ts (chars "name") with
    | none => .error .keyError
    | some sn =>
      match collectCases sn (findall (chars "testcase") ts) with
      | .error er => .error er
      | .ok cs =>
        match collectSuites tss with
        | .error er => .error er
        | .ok rest => .ok (cs ++ rest)

/-- `junit_xml.parse(filename)`, as a function of the document text: for every
`testsuite` child of the root, for every `testcase` child of it, emit
`(suiteName + '.' + caseName, failure texts, status == 'notrun')` in document
order. -/
def junit_xml_parse (doc : Str) : Except PyErr (List (Str × List (Option Str) × Bool)) :=
  match fromstring doc with
  | none => .error .parseError
  | some root => collectSuites (findall (chars "testsuite") root)

/-- Modelled from the spec: `boost.py` invokes `junit_xml.get_failures`, a name
the `junit_xml` module in `src/` does not define; the module's JUnit parser is
`parse`, and spec sections 4.3 and 4.5 state that the JUnit run path parses the
log file with the JUnit-dialect report parser.  `get_failures` is therefore
modelled as that parser. -/
def get_failures (doc : Str) : Except PyErr (List (Str × List (Option Str) × Bool)) :=
  junit_xml_parse doc

/-- `_run_tests`, as a function of the JUnit log the child process wrote.  The
loop returns at the first tuple whose name equals `test_id`: with failure
texts it executes `[BoostTestFailure(x) for x in failures]`, which raises
`TypeError` because `BoostTestFailure.__init__` requires three arguments;
with `skipped` set it calls `pytest.skip()`; otherwise it returns `None`.
With no matching tuple, a non-empty result list is returned unconverted. -/
def _run_tests (logContent : Str) (test_id : Str) : Except PyErr RunOutcome :=
  match get_failures logContent with
  | .error er => .error er
  | .ok results =>
    match results.find? (fun r => r.1 == test_id) with
    | some (_, failures, skipped) =>
      if !failures.isEmpty then .error .typeError
      else if skipped then .ok .skipped
      else .ok .passed
    | none => if !results.isEmpty then .ok (.rawResults results) else .ok .passed

/-- `BoostTestFacade.run_test`: re-probe with `--help`; on success dispatch on
the JUNIT advertisement; `CalledProcessError` falls back to the native path;
an `OSError` from the probe is not caught and propagates. -/
def run_test (probe : ProbeResult) (fexec : FallbackExec) (junitLog : Str)
    (executable test_id : Str) : Except PyErr RunOutcome :=
  match probe with
  | .ok output =>
    if junitLogFormatAdvertised output then _run_tests junitLog test_id
    else _run_tests_fallback fexec executable test_id
  | .calledProcessError => _run_tests_fallback fexec executable test_id
  | .osError => .error .osError

/-- Invariant checked by claim C9: a returned `failed` (or raw-results)
outcome never carries an empty list; everything else is acceptable. -/
def failedListNonempty : Except PyErr RunOutcome → Bool
  | .ok (.failed records) => !records.isEmpty
  | .ok (.rawResults results) => !results.isEmpty
  | _ => true

/-- `piece` occurs inside `msg` as a contiguous substring. -/
def containsText (msg piece : Str) : Prop := ∃ u v, msg = u ++ piece ++ v

/-!
Claim theorems.
-/

/-- C2 counterexample: the claim asserts that parsing absent or empty log text
returns an empty list of failure records; in fact `_parse_log` raises
`AttributeError` on the absent (`None`) log (`None.startswith`) and
`ParseError` on the empty log (`ElementTree.fromstring('')`), so neither input
yields `[]`. -/
theorem parse_log_counterexample_absent_empty :
    _parse_log (some (chars "")) = .error .parseError ∧
    _parse_log none = .error .attributeError ∧
    _parse_log (some (chars "")) ≠ .ok [] ∧
    _parse_log none ≠ .ok [] :=
  ⟨rfl, rfl, (fun h => nomatch h), (fun h => nomatch h)⟩

/-- C2 (amended): a missing log file is read as no content (`None`), but
`_parse_log` raises on an absent (`AttributeError`) or empty (`ParseError`)
log rather than returning an empty list; a well-formed log document with no
`Exception`/`Error`/`FatalError` children yields the empty record list, and a
fallback run with an acceptable exit code and such a log reports `Passed`. -/
theorem parse_log_empty_behaviour :
    _parse_log none = .error .attributeError ∧
    _parse_log (some (chars "")) = .error .parseError ∧
    _parse_log (some (chars "<TestLog></TestLog>")) = .ok [] ∧
    _run_tests_fallback ⟨0, chars "", some (chars "<TestLog></TestLog>"), none⟩
      (chars "exe") (chars "test") = .ok .passed :=
  ⟨rfl, rfl, rfl, rfl⟩

/-- C4: on the hierarchical listing output `A*`, `  B*`, `  C*`, `D*` the
listing algorithm produces exactly `["A/B", "A/C", "D"]` in that order; the
equal indentation of `B*` and `C*` closes the previous sibling branch, as the
emitted `A/B` followed by `A/C` shows. -/
theorem list_tests_hierarchical_example :
    _list_tests (chars "A*\n  B*\n  C*\nD*") = [chars "A/B", chars "A/C", chars "D"] := rfl

/-- C5 counterexample: on the claim's exact log text the `FatalError` fragment
carries no `file`/`line` attributes, so `elem.attrib['file']` raises
`KeyError`; `_parse_log` does not return the two claimed records. -/
theorem parse_log_counterexample_fatal_without_attrs :
    _parse_log (some (chars "<FatalError>boom</FatalError><TestLog><Exception file=\"a.cpp\" line=\"5\">bad</Exception></TestLog>")) =
      .error .keyError ∧
    _parse_log (some (chars "<FatalError>boom</FatalError><TestLog><Exception file=\"a.cpp\" line=\"5\">bad</Exception></TestLog>")) ≠
      .ok [⟨chars "f.cpp", 7, chars "Fatal Error: boom"⟩, ⟨chars "a.cpp", 5, chars "bad"⟩] :=
  ⟨rfl, fun h => nomatch h⟩

/-- C5 (amended): when the leading `FatalError` fragment carries its own
`file` and `line` attributes, `_parse_log` splits the malformed document at
the closing tag, re-appends the tag, prefixes the fragment's text with
`Fatal Error: `, and returns the fragment's record followed by the remainder
document's `Exception` record, in that order.  On the claim's original input,
whose fragment lacks those attributes, it raises `KeyError` instead. -/
theorem parse_log_fatal_fragment_with_attrs :
    _parse_log (some (chars "<FatalError file=\"f.cpp\" line=\"7\">boom</FatalError><TestLog><Exception file=\"a.cpp\" line=\"5\">bad</Exception></TestLog>")) =
      .ok [⟨chars "f.cpp", 7, chars "Fatal Error: boom"⟩, ⟨chars "a.cpp", 5, chars "bad"⟩] := rfl

/-- C6 counterexample: in the claim's document `testcase name="t1"` has no
children and, read literally, no `status` attribute; `junit_xml.parse` reads
`testcase.attrib['status']` unconditionally and raises `KeyError`, so neither
the parse tuples nor the `Skipped` outcome are produced. -/
theorem junit_counterexample_missing_status :
    junit_xml_parse (chars "<testsuites><testsuite name=\"S\"><testcase name=\"t1\"/><testcase name=\"t2\" status=\"notrun\"/></testsuite></testsuites>") =
      .error .keyError ∧
    _run_tests (chars "<testsuites><testsuite name=\"S\"><testcase name=\"t1\"/><testcase name=\"t2\" status=\"notrun\"/></testsuite></testsuites>")
      (chars "S.t2") = .error .keyError ∧
    junit_xml_parse (chars "<testsuites><testsuite name=\"S\"><testcase name=\"t1\"/><testcase name=\"t2\" status=\"notrun\"/></testsuite></testsuites>") ≠
      .ok [(chars "S.t1", [], false), (chars "S.t2", [], true)] :=
  ⟨rfl, rfl, fun h => nomatch h⟩

/-- C6 (amended): with `testcase name="t1"` carrying a `status` attribute
other than `notrun` (here `status="run"`), the JUnit parser yields
`("S.t1", [], false)` and `("S.t2", [], true)` in document order, and running
against `testId="S.t2"` signals the distinct `Skipped` outcome. -/
theorem junit_skip_detection :
    junit_xml_parse (chars "<testsuites><testsuite name=\"S\"><testcase name=\"t1\" status=\"run\"/><testcase name=\"t2\" status=\"notrun\"/></testsuite></testsuites>") =
      .ok [(chars "S.t1", [], false), (chars "S.t2", [], true)] ∧
    _run_tests (chars "<testsuites><testsuite name=\"S\"><testcase name=\"t1\" status=\"run\"/><testcase name=\"t2\" status=\"notrun\"/></testsuite></testsuites>")
      (chars "S.t2") = .ok .skipped :=
  ⟨rfl, rfl⟩

/-- C7 (code bug): when the parsed JUnit results are non-empty but none
matches the requested test id, `_run_tests` executes `return results`,
returning the raw `(testName, failureTexts, skipped)` tuples unconverted
instead of the claimed `Failed` outcome made of failure records. -/
theorem run_tests_mismatch_returns_raw_tuples :
    _run_tests (chars "<testsuites><testsuite name=\"S\"><testcase name=\"t1\" status=\"run\"/></testsuite></testsuites>")
      (chars "nope") = .ok (.rawResults [(chars "S.t1", [], false)]) ∧
    ∀ records : List BoostTestFailure,
      _run_tests (chars "<testsuites><testsuite name=\"S\"><testcase name=\"t1\" status=\"run\"/></testsuite></testsuites>")
        (chars "nope") ≠ .ok (.failed records) :=
  ⟨rfl, fun _ h => nomatch h⟩

/-- C8 counterexample: a spawn failure (`OSError`) on the help invocation is
surfaced to the caller: `create_facade` catches only `CalledProcessError`, so
the exception propagates, and likewise from `run_test`. -/
theorem probe_spawn_failure_propagates :
    create_facade .osError = .error .osError ∧
    run_test .osError ⟨0, [], none, none⟩ [] [] [] = .error .osError :=
  ⟨rfl, rfl⟩

/-- C8 (amended): a non-zero exit code on the help invocation is recovered
locally — `create_facade` falls back to the minimal-capability facade and
`run_test` runs the fallback path — and the applicability probe
`is_test_suite` recovers both failure kinds as `False`; but a spawn failure
(`OSError`) is not caught by `create_facade` or `run_test` and propagates as
an exception. -/
theorem probe_failure_recovery_scope :
    create_facade .calledProcessError = .ok ⟨.fallback, .fallback⟩ ∧
    (∀ (fexec : FallbackExec) (junitLog executable test_id : Str),
      run_test .calledProcessError fexec junitLog executable test_id =
        _run_tests_fallback fexec executable test_id) ∧
    is_test_suite .calledProcessError = false ∧
    is_test_suite .osError = false ∧
    create_facade .osError = .error .osError :=
  ⟨rfl, fun _ _ _ _ => rfl, rfl, rfl, rfl⟩

/-- The fuelled split and count agree: a split always has one more piece than
there are separator occurrences. -/
theorem splitOnSubF_length_eq (sep : Str) :
    ∀ fuel s, (splitOnSubF sep fuel s).length = countSubF sep fuel s + 1 := by
  intro fuel
  induction fuel with
  | zero =>
    intro s
    cases s <;> simp [splitOnSubF, countSubF]
  | succ n ih =>
    intro s
    cases s with
    | nil => simp [splitOnSubF, countSubF]
    | cons c rest =>
      by_cases h : (sep.isPrefixOf (c :: rest) && !sep.isEmpty) = true
      · simp only [splitOnSubF, countSubF, if_pos h]
        simp [ih]
      · simp only [splitOnSubF, countSubF, if_neg h]
        cases hr : splitOnSubF sep n rest with
        | nil =>
          have hx := ih rest
          rw [hr] at hx
          simp at hx
        | cons r rs =>
          have hx := ih rest
          rw [hr] at hx
          simp only [List.length_cons] at hx ⊢
          omega

/-- `len(s.split(sep)) = s.count(sep) + 1`. -/
theorem splitOnSub_length_eq (sep s : Str) :
    (splitOnSub sep s).length = countSub sep s + 1 :=
  splitOnSubF_length_eq sep s.length s

/-- C10: whenever the log text starts with `<FatalError` and contains the
closing tag `</FatalError>` more than once, `log.split('</FatalError>')`
yields more than two pieces, the two-name tuple unpacking fails, and
`_parse_log` raises `ValueError` instead of returning failure records. -/
theorem parse_log_double_fatal_close_raises (s : Str)
    (h1 : startsWithB (chars "<FatalError") s = true)
    (h2 : 2 ≤ countSub (chars "</FatalError>") s) :
    _parse_log (some s) = .error .valueError := by
  have hlen : 3 ≤ (splitOnSub (chars "</FatalError>") s).length := by
    rw [splitOnSub_length_eq]; omega
  simp only [_parse_log, if_pos h1]
  cases hsp : splitOnSub (chars "</FatalError>") s with
  | nil => rfl
  | cons a as =>
    cases as with
    | nil => rfl
    | cons b bs =>
      cases bs with
      | nil => rw [hsp] at hlen; simp at hlen
      | cons c cs => rfl

/-- C10 witness: a concrete log starting with `<FatalError` whose closing tag
occurs twice makes `_parse_log` raise `ValueError`. -/
theorem parse_log_double_fatal_close_raises_witness :
    (startsWithB (chars "<FatalError") (chars "<FatalError></FatalError></FatalError>") = true ∧
     2 ≤ countSub (chars "</FatalError>") (chars "<FatalError></FatalError></FatalError>")) ∧
    _parse_log (some (chars "<FatalError></FatalError></FatalError>")) = .error .valueError :=
  ⟨⟨rfl, by decide⟩,
   parse_log_double_fatal_close_raises (chars "<FatalError></FatalError></FatalError>") rfl
     (by decide)⟩

/-- C1: on the fallback/native path, an exit code other than 0, 200 and 201
yields exactly one synthetic failure record with source file
`<no source file>` and line 0, whose message embeds the executable path, the
test id, the exit code, the captured stdout, the log content and the report
content (the latter two printed as `None` when the file was missing). -/
theorem fallback_bad_exit_synthetic_failure (e : FallbackExec) (executable test_id : Str)
    (h : e.returncode ≠ 0 ∧ e.returncode ≠ 200 ∧ e.returncode ≠ 201) :
    _run_tests_fallback e executable test_id =
      .ok (.failed [⟨chars "<no source file>", 0, internalErrorMsg e executable test_id⟩]) ∧
    containsText (internalErrorMsg e executable test_id) executable ∧
    containsText (internalErrorMsg e executable test_id) test_id ∧
    containsText (internalErrorMsg e executable test_id) (toString e.returncode).toList ∧
    containsText (internalErrorMsg e executable test_id) e.stdout ∧
    containsText (internalErrorMsg e executable test_id) (pyFormatOpt e.log) ∧
    containsText (internalErrorMsg e executable test_id) (pyFormatOpt e.report) := by
  obtain ⟨h0, h200, h201⟩ := h
  refine ⟨?_, ?_, ?_, ?_, ?_, ?_, ?_⟩
  · have hc : (e.returncode == 0 || e.returncode == 200 || e.returncode == 201) = false := by
      simp [h0, h200, h201]
    unfold _run_tests_fallback
    rw [hc]
    rfl
  · exact ⟨chars "Internal Error: calling ",
      chars " for test " ++ test_id ++ chars " failed (returncode=" ++
        (toString e.returncode).toList ++ chars "):\n" ++ chars "output:" ++ e.stdout ++
        chars "\n" ++ chars "log:" ++ pyFormatOpt e.log ++ chars "\n" ++ chars "report:" ++
        pyFormatOpt e.report,
      by simp [internalErrorMsg]⟩
  · exact ⟨chars "Internal Error: calling " ++ executable ++ chars " for test ",
      chars " failed (returncode=" ++ (toString e.returncode).toList ++ chars "):\n" ++
        chars "output:" ++ e.stdout ++ chars "\n" ++ chars "log:" ++ pyFormatOpt e.log ++
        chars "\n" ++ chars "report:" ++ pyFormatOpt e.report,
      by simp [internalErrorMsg]⟩
  · exact ⟨chars "Internal Error: calling " ++ executable ++ chars " for test " ++ test_id ++
        chars " failed (returncode=",
      chars "):\n" ++ chars "output:" ++ e.stdout ++ chars "\n" ++ chars "log:" ++
        pyFormatOpt e.log ++ chars "\n" ++ chars "report:" ++ pyFormatOpt e.report,
      by simp [internalErrorMsg]⟩
  · exact ⟨chars "Internal Error: calling " ++ executable ++ chars " for test " ++ test_id ++
        chars " failed (returncode=" ++ (toString e.returncode).toList ++ chars "):\n" ++
        chars "output:",
      chars "\n" ++ chars "log:" ++ pyFormatOpt e.log ++ chars "\n" ++ chars "report:" ++
        pyFormatOpt e.report,
      by simp [internalErrorMsg]⟩
  · exact ⟨chars "Internal Error: calling " ++ executable ++ chars " for test " ++ test_id ++
        chars " failed (returncode=" ++ (toString e.returncode).toList ++ chars "):\n" ++
        chars "output:" ++ e.stdout ++ chars "\n" ++ chars "log:",
      chars "\n" ++ chars "report:" ++ pyFormatOpt e.report,
      by simp [internalErrorMsg]⟩
  · exact ⟨chars "Internal Error: calling " ++ executable ++ chars " for test " ++ test_id ++
        chars " failed (returncode=" ++ (toString e.returncode).toList ++ chars "):\n" ++
        chars "output:" ++ e.stdout ++ chars "\n" ++ chars "log:" ++ pyFormatOpt e.log ++
        chars "\n" ++ chars "report:",
      [],
      by simp [internalErrorMsg]⟩

/-- C1 witness: exit code 1 with no log and no report files produced. -/
theorem fallback_bad_exit_synthetic_failure_witness :
    ((1 : Int) ≠ 0 ∧ (1 : Int) ≠ 200 ∧ (1 : Int) ≠ 201) ∧
    _run_tests_fallback ⟨1, chars "out", none, none⟩ (chars "/x/exe") (chars "tid") =
      .ok (.failed [⟨chars "<no source file>", 0,
        internalErrorMsg ⟨1, chars "out", none, none⟩ (chars "/x/exe") (chars "tid")⟩]) :=
  ⟨by decide,
   (fallback_bad_exit_synthetic_failure ⟨1, chars "out", none, none⟩ (chars "/x/exe")
     (chars "tid") (by decide)).1⟩

/-- C9: on every path of both runners, a returned `failed` outcome carries a
non-empty record list (and the JUnit path's raw-results return is likewise
guarded by non-emptiness); an empty record set is always reported as
`passed`. -/
theorem failed_outcome_never_empty (e : FallbackExec) (executable test_id doc tid : Str) :
    failedListNonempty (_run_tests_fallback e executable test_id) = true ∧
    failedListNonempty (_run_tests doc tid) = true := by
  have hparse : ∀ log, failedListNonempty (runFallbackParse log) = true := by
    intro log
    unfold runFallbackParse
    cases _parse_log log with
    | error er => rfl
    | ok results =>
      cases hres : results.isEmpty with
      | true => simp [failedListNonempty, hres]
      | false => simp [failedListNonempty, hres]
  constructor
  · unfold _run_tests_fallback
    by_cases hrc : (!(e.returncode == 0 || e.returncode == 200 || e.returncode == 201)) = true
    · rw [if_pos hrc]; rfl
    · rw [if_neg hrc]
      by_cases hs : sentinelReport e.report = true
      · rw [if_pos hs]; rfl
      · rw [if_neg hs]; exact hparse e.log
  · unfold _run_tests
    cases get_failures doc with
    | error er => rfl
    | ok results =>
      cases hf : results.find? (fun r => r.1 == tid) with
      | some tup =>
        obtain ⟨nm, fails, skp⟩ := tup
        cases fails with
        | nil => cases skp <;> simp [failedListNonempty, hf]
        | cons f fs => simp [failedListNonempty, hf]
      | none =>
        cases results with
        | nil => simp [failedListNonempty, hf]
        | cons a as => simp [failedListNonempty, hf]

theorem mem_of_mem_tw {α : Type} {q : α → Bool} {l : List α} {a : α}
    (h : a ∈ l.takeWhile q) : a ∈ l := by
  induction l with
  | nil => simp at h
  | cons b t ih =>
    by_cases hq : q b = true
    · rw [List.takeWhile_cons_of_pos hq] at h
      rcases List.mem_cons.mp h with h1 | h2
      · exact List.mem_cons.mpr (Or.inl h1)
      · exact List.mem_cons.mpr (Or.inr (ih h2))
    · rw [List.takeWhile_cons_of_neg hq] at h
      simp at h

theorem tw_length_eq {α : Type} (q : α → Bool) (l : List α)
    (h : (l.takeWhile q).length = l.length) : l.takeWhile q = l := by
  induction l with
  | nil => rfl
  | cons a t ih =>
    by_cases hq : q a = true
    · rw [List.takeWhile_cons_of_pos hq] at h ⊢
      simp only [List.length_cons, Nat.add_right_cancel_iff] at h
      rw [ih h]
    · rw [List.takeWhile_cons_of_neg hq] at h
      simp at h

theorem tw_append_stop {α : Type} (q : α → Bool) (l₁ l₂ : List α)
    (hbad : ¬ ∀ a ∈ l₁, q a = true) :
    (l₁ ++ l₂).takeWhile q = l₁.takeWhile q := by
  rw [List.takeWhile_append]
  rw [if_neg]
  intro hlen
  exact hbad (List.takeWhile_eq_self_iff.mp (tw_length_eq q l₁ hlen))

theorem dropWhile_head_false {α : Type} (q : α → Bool) (l : List α) (c : α) (t : List α)
    (h : l.dropWhile q = c :: t) : q c = false := by
  induction l with
  | nil => simp at h
  | cons b bs ih =>
    by_cases hq : q b = true
    · rw [List.dropWhile_cons_of_pos hq] at h
      exact ih h
    · rw [List.dropWhile_cons_of_neg hq] at h
      injection h with h1 _
      subst h1
      simpa using hq

theorem basename_splitext_comm (p : Str) :
    os_basename (os_splitext p).1 = (os_splitext (os_basename p)).1 := by
  have hBrev : (os_basename p).reverse = p.reverse.takeWhile notSlash := by
    unfold os_basename
    rw [List.reverse_reverse]
  cases hd : p.reverse.dropWhile notDot with
  | nil =>
    have htw : p.reverse.takeWhile notDot = p.reverse := by
      have hx := List.takeWhile_append_dropWhile (p := notDot) (l := p.reverse)
      rw [hd, List.append_nil] at hx
      exact hx
    have hall : ∀ a ∈ p.reverse, notDot a = true := List.takeWhile_eq_self_iff.mp htw
    have h1 : os_splitext p = (p, []) := by
      unfold os_splitext
      rw [if_pos (congrArg List.length htw)]
    have hallb : ∀ a ∈ (os_basename p).reverse, notDot a = true := by
      intro a ha
      rw [hBrev] at ha
      exact hall a (mem_of_mem_tw ha)
    have htwb : (os_basename p).reverse.takeWhile notDot = (os_basename p).reverse :=
      List.takeWhile_eq_self_iff.mpr hallb
    have h2 : os_splitext (os_basename p) = (os_basename p, []) := by
      unfold os_splitext
      rw [if_pos (congrArg List.length htwb)]
    rw [h1, h2]
  | cons c s =>
    have hcdot : notDot c = false := dropWhile_head_false notDot p.reverse c s hd
    have hc : c = '.' := by
      simpa [notDot] using hcdot
    subst hc
    have he : p.reverse = p.reverse.takeWhile notDot ++ '.' :: s := by
      have hx := List.takeWhile_append_dropWhile (p := notDot) (l := p.reverse)
      rw [hd] at hx
      exact hx.symm
    have halleD : ∀ a ∈ p.reverse.takeWhile notDot, notDot a = true :=
      fun a ha => List.mem_takeWhile_imp ha
    have hplen : p.reverse.length = (p.reverse.takeWhile notDot).length + s.length + 1 := by
      conv_lhs => rw [he]
      simp
      omega
    have hlen1 : ¬ ((p.reverse.takeWhile notDot).length = p.reverse.length) := by
      omega
    by_cases hslash : (p.reverse.takeWhile notDot).any isSlash = true
    · -- a slash occurs after the last dot: no extension on either side
      have hbad : ¬ ∀ a ∈ p.reverse.takeWhile notDot, notSlash a = true := by
        intro hgood
        obtain ⟨x, hx, hxs⟩ := List.any_eq_true.mp hslash
        have : notSlash x = true := hgood x hx
        simp [isSlash] at hxs
        simp [notSlash, hxs] at this
      have h1 : os_splitext p = (p, []) := by
        unfold os_splitext
        rw [if_neg hlen1, if_pos hslash]
      have hRB : p.reverse.takeWhile notSlash = (p.reverse.takeWhile notDot).takeWhile notSlash := by
        conv_lhs => rw [he]
        exact tw_append_stop notSlash _ _ hbad
      have hallb : ∀ a ∈ (os_basename p).reverse, notDot a = true := by
        intro a ha
        rw [hBrev, hRB] at ha
        exact halleD a (mem_of_mem_tw ha)
      have htwb : (os_basename p).reverse.takeWhile notDot = (os_basename p).reverse :=
        List.takeWhile_eq_self_iff.mpr hallb
      have h2 : os_splitext (os_basename p) = (os_basename p, []) := by
        unfold os_splitext
        rw [if_pos (congrArg List.length htwb)]
      rw [h1, h2]
    · -- no slash after the last dot
      have hnos : (p.reverse.takeWhile notDot).any isSlash = false :=
        Bool.eq_false_iff.mpr hslash
      have halleS : ∀ a ∈ p.reverse.takeWhile notDot, notSlash a = true := by
        intro a ha
        have : isSlash a = false := by
          rcases Bool.eq_false_or_eq_true (isSlash a) with h | h
          · exact absurd (List.any_eq_true.mpr ⟨a, ha, h⟩) (by simp [hnos])
          · exact h
        simp [isSlash] at this
        simp [notSlash, this]
      have htwD : ∀ t : Str,
          ((p.reverse.takeWhile notDot) ++ '.' :: t).takeWhile notDot =
            p.reverse.takeWhile notDot := by
        intro t
        rw [List.takeWhile_append_of_pos halleD, List.takeWhile_cons_of_neg (by decide)]
        simp
      have hdropgen : ∀ t : Str,
          ((p.reverse.takeWhile notDot) ++ '.' :: t).drop
            ((p.reverse.takeWhile notDot).length + 1) = t := by
        intro t
        rw [show (p.reverse.takeWhile notDot) ++ '.' :: t =
              ((p.reverse.takeWhile notDot) ++ ['.']) ++ t by simp]
        rw [List.drop_left' (by simp)]
      have hstem : p.reverse.drop ((p.reverse.takeWhile notDot).length + 1) = s := by
        conv_lhs => rw [he, htwD s]
        exact hdropgen s
      have hRB : p.reverse.takeWhile notSlash =
          (p.reverse.takeWhile notDot) ++ '.' :: s.takeWhile notSlash := by
        conv_lhs => rw [he]
        rw [List.takeWhile_append_of_pos halleS, List.takeWhile_cons_of_pos (by decide)]
      have hBtwD : (os_basename p).reverse.takeWhile notDot = p.reverse.takeWhile notDot := by
        rw [hBrev, hRB, htwD]
      have hBlen : (os_basename p).reverse.length =
          (p.reverse.takeWhile notDot).length + (s.takeWhile notSlash).length + 1 := by
        rw [hBrev, hRB]
        simp
        omega
      have hlen1' : ¬ ((os_basename p).reverse.takeWhile notDot).length =
          (os_basename p).reverse.length := by
        rw [hBtwD]
        omega
      have hnos' : ((os_basename p).reverse.takeWhile notDot).any isSlash = false := by
        rw [hBtwD]
        exact hnos
      have hstem' : (os_basename p).reverse.drop
          (((os_basename p).reverse.takeWhile notDot).length + 1) = s.takeWhile notSlash := by
        rw [hBtwD, hBrev, hRB]
        exact hdropgen (s.takeWhile notSlash)
      have hWtw : (s.takeWhile notSlash).takeWhile notSlash = s.takeWhile notSlash :=
        List.takeWhile_eq_self_iff.mpr (fun a ha => List.mem_takeWhile_imp ha)
      by_cases hdots : ((s.takeWhile notSlash).all isDot) = true
      · have h1 : os_splitext p = (p, []) := by
          unfold os_splitext
          rw [if_neg hlen1, if_neg (by simp [hnos]), hstem, if_pos hdots]
        have h2 : os_splitext (os_basename p) = (os_basename p, []) := by
          unfold os_splitext
          rw [if_neg hlen1', if_neg (by simp [hnos']), hstem', hWtw, if_pos hdots]
        rw [h1, h2]
      · have h1 : (os_splitext p).1 = s.reverse := by
          unfold os_splitext
          rw [if_neg hlen1, if_neg (by simp [hnos]), hstem, if_neg hdots]
        have h2 : (os_splitext (os_basename p)).1 = (s.takeWhile notSlash).reverse := by
          unfold os_splitext
          rw [if_neg hlen1', if_neg (by simp [hnos']), hstem', hWtw, if_neg hdots]
        rw [h1, h2]
        unfold os_basename
        rw [List.reverse_reverse]

/-- C3: the fallback listing strategy returns exactly one identifier: the
executable's base name with its extension removed (stripping the extension
before taking the base name, as the source does, coincides with taking the
base name first and stripping its extension); in particular the result is
never empty. -/
theorem fallback_listing_single_identifier (executable : Str) :
    _list_tests_fallback executable = [(os_splitext (os_basename executable)).1] ∧
    (_list_tests_fallback executable).length = 1 := by
  constructor
  · unfold _list_tests_fallback
    rw [basename_splitext_comm]
  · rfl
